import Mathlib

/-!
Shallow embedding of the FSRS v5 scheduler (`Scripts/fsrs_v5.py`) and of the
review store built on it (`Scripts/spaced_repetition.py`).

Modelling choices:
* Python floats are modelled as real numbers; `x ** y` is `Real.rpow`,
  `math.exp` is `Real.exp`, `round` is Mathlib's `round`.
* Timestamps are modelled at day granularity as integers, so
  `(review_time - last_review).days` becomes integer subtraction.
* Python list indexing `w[i]` (which accepts negative indices and raises
  `IndexError` out of range) is modelled by `pyIndex`, returning `Option`.
* The in-place mutation performed by `FSRS.review_card` on its argument is
  modelled explicitly by `review_card_obj` over a store of card objects.
-/

namespace FSRS

/-- The 19 default FSRS v5 parameters (`DEFAULT_WEIGHTS` in `fsrs_v5.py`). -/
noncomputable def DEFAULT_WEIGHTS : List ℝ :=
  [0.4072, 1.1829, 3.1262, 15.4722,
   7.2102, 0.5316, 1.0651, 0.0234,
   1.616, 0.1544, 1.0826, 1.9813,
   0.0953, 0.2975, 2.2042, 0.2407,
   2.9466, 0.5034, 0.6567]

/-- `self.w[i]` for a nonnegative in-range index (every hard-coded index the
code uses is in range, so the default value 0 is never reached there). -/
noncomputable def w (i : ℕ) : ℝ := DEFAULT_WEIGHTS.getD i 0

/-- Python list read `l[i]`: nonnegative indices from the front, negative
indices from the back, `IndexError` (here `none`) when out of range. -/
noncomputable def pyIndex (l : List ℝ) (i : ℤ) : Option ℝ :=
  if 0 ≤ i then l.get? i.toNat
  else if 0 ≤ i + (l.length : ℤ) then l.get? (i + (l.length : ℤ)).toNat
  else none

/-- `self.DECAY = -0.5`. -/
noncomputable def DECAY : ℝ := -0.5

/-- `self.FACTOR = 19/81`. -/
noncomputable def FACTOR : ℝ := 19 / 81

/-- `self.REQUEST_RETENTION = 0.9`. -/
noncomputable def REQUEST_RETENTION : ℝ := 0.9

/-- Card review states (`class State` in `fsrs_v5.py`). -/
inductive State where
  | NEW
  | LEARNING
  | REVIEW
  | RELEARNING
deriving DecidableEq

/-- FSRS v5 card (`class Card` in `fsrs_v5.py`).  The fields are exactly the
attributes set in `Card.__init__`; `card_id` plays no role in scheduling and
is omitted. -/
structure Card where
  difficulty : ℝ
  stability : ℝ
  elapsed_days : ℤ
  scheduled_days : ℤ
  reps : ℕ
  lapses : ℕ
  state : State
  last_review : Option ℤ
  due : Option ℤ

/-- A freshly constructed card (`Card.__init__`). -/
noncomputable def Card.new : Card :=
  { difficulty := 0, stability := 0, elapsed_days := 0, scheduled_days := 0,
    reps := 0, lapses := 0, state := State.NEW, last_review := none, due := none }

/-- `FSRS.calculate_retrievability`:
`R = (1 + FACTOR * elapsed_days / (9 * stability)) ** DECAY`. -/
noncomputable def calculate_retrievability (elapsed_days stability : ℝ) : ℝ :=
  (1 + FACTOR * elapsed_days / (9 * stability)) ^ DECAY

/-- `FSRS.init_difficulty`: `w[2] + (rating - 3) * w[3] + w[4]`. -/
noncomputable def init_difficulty (rating : ℤ) : ℝ :=
  w 2 + ((rating : ℝ) - 3) * w 3 + w 4

/-- `FSRS.init_stability`: `max(0.1, w[rating - 1])`, with Python list
semantics for the index (rating 0 silently reads `w[-1] = w[18]`). -/
noncomputable def init_stability (rating : ℤ) : Option ℝ :=
  (pyIndex DEFAULT_WEIGHTS (rating - 1)).map (fun x => max 0.1 x)

/-- The real-valued interval computed inside `FSRS.next_interval` before
rounding: `ivl = stability / FACTOR * (REQUEST_RETENTION ** (1/DECAY) - 1) * 9`. -/
noncomputable def next_interval_exact (stability : ℝ) : ℝ :=
  stability / FACTOR * (REQUEST_RETENTION ^ ((1 : ℝ) / DECAY) - 1) * 9

/-- `FSRS.next_interval`: `max(1, round(ivl))`. -/
noncomputable def next_interval (stability : ℝ) : ℤ :=
  max 1 (round (next_interval_exact stability))

/-- `FSRS.update_stability_on_success` (rating > 1). -/
noncomputable def update_stability_on_success
    (card : Card) (rating : ℤ) (retrievability : ℝ) : ℝ :=
  let D := card.difficulty
  let S := card.stability
  let hard_penalty : ℝ := if rating = 2 then 1 else 0
  let easy_bonus : ℝ := if rating = 4 then 1 else 0
  let S_new := S * (1 + Real.exp (w 8) * (11 - D) * S ^ (-(w 9)) *
    (Real.exp (w 10 * (1 - retrievability)) - 1) *
    Real.exp (w 15 * (1 - hard_penalty)) *
    Real.exp (w 16 * easy_bonus))
  max 0.1 S_new

/-- `FSRS.update_stability_on_lapse` (rating = 1). -/
noncomputable def update_stability_on_lapse (card : Card) (retrievability : ℝ) : ℝ :=
  let D := card.difficulty
  let S := card.stability
  let S_new := w 11 * D ^ (-(w 12)) * ((S + 1) ^ w 13 - 1) *
    Real.exp (w 14 * (1 - retrievability))
  max 0.1 S_new

/-- `FSRS.update_difficulty`: mean reversion followed by the clamp
`max(1, min(10, D_new))`. -/
noncomputable def update_difficulty (card : Card) (rating : ℤ) : ℝ :=
  let D := card.difficulty
  let D0_mean := init_difficulty 3
  let D_new := w 7 * D0_mean + (1 - w 7) * (D - w 6 * ((rating : ℝ) - 3))
  max 1 (min 10 D_new)

/-- The straight-line tail of `FSRS.review_card`: set `scheduled_days`,
`due`, `last_review` and increment `reps`. -/
noncomputable def schedule (card : Card) (review_time : ℤ) : Card :=
  let ivl := next_interval card.stability
  { card with scheduled_days := ivl,
              due := some (review_time + ivl),
              last_review := some review_time,
              reps := card.reps + 1 }

/-- `FSRS.review_card` as a function of the card value, a rating and the
review time (in days).  `none` models a raised Python exception (only
possible through `init_stability` on a wildly out-of-range rating). -/
noncomputable def review_card (card : Card) (rating : ℤ) (review_time : ℤ) :
    Option Card :=
  let elapsed : ℤ :=
    match card.last_review with
    | some lr => review_time - lr
    | none => 0
  let c1 : Card := { card with elapsed_days := elapsed }
  if c1.state = State.NEW then
    match init_stability rating with
    | none => none
    | some s0 =>
      let c2 : Card := { c1 with
        difficulty := init_difficulty rating,
        stability := s0,
        state := if rating = 1 then State.LEARNING else State.REVIEW }
      some (schedule c2 review_time)
  else
    let R := calculate_retrievability (c1.elapsed_days : ℝ) c1.stability
    let c2 : Card :=
      if rating = 1 then
        { c1 with stability := update_stability_on_lapse c1 R,
                  lapses := c1.lapses + 1,
                  state := State.RELEARNING }
      else
        { c1 with stability := update_stability_on_success c1 rating R,
                  state := State.REVIEW }
    let c3 : Card := { c2 with difficulty := update_difficulty c2 rating }
    some (schedule c3 review_time)

/-- Object-level view of `FSRS.review_card`: the Python function assigns to
the attributes of the very `Card` object it was handed and returns that same
object.  A store maps object references to card values; the call overwrites
the referenced object with the updated value and returns the same reference. -/
noncomputable def review_card_obj (store : ℕ → Card) (ref : ℕ)
    (rating : ℤ) (review_time : ℤ) : Option ((ℕ → Card) × ℕ) :=
  match review_card (store ref) rating review_time with
  | none => none
  | some c2 => some (Function.update store ref c2, ref)

end FSRS

namespace Store

/-- A row of the `spaced_repetition` table as read by
`SpacedRepetitionManager.get_due_reviews` (joined with `skills`; only the
columns the query logic touches are modelled). -/
structure SRRow where
  card_id : ℕ
  user_id : ℕ
  skill_id : ℕ
  stability : ℝ
  difficulty : ℝ
  due : ℤ
  state : FSRS.State

/-- The `ORDER BY sr.due ASC` comparison. -/
def dueLE (a b : SRRow) : Prop := a.due ≤ b.due

instance : DecidableRel dueLE := fun a b => inferInstanceAs (Decidable (a.due ≤ b.due))

instance : IsTotal SRRow dueLE := ⟨fun a b => le_total a.due b.due⟩

instance : IsTrans SRRow dueLE := ⟨fun _ _ _ hab hbc => le_trans hab hbc⟩

/-- `SpacedRepetitionManager.get_due_reviews`: the SQL query
`JOIN skills ON sr.skill_id = s.id WHERE sr.due <= datetime('now')
ORDER BY sr.due ASC LIMIT limit`.  The `user_id` argument mirrors the Python
parameter of the same name: the query never mentions it. -/
noncomputable def get_due_reviews (table : List SRRow) (skills : List ℕ)
    (now : ℤ) (user_id : ℕ) (limit : ℕ) : List SRRow :=
  (List.insertionSort dueLE
    (table.filter fun r => decide (r.skill_id ∈ skills) && decide (r.due ≤ now))).take
    limit

end Store

namespace FSRS

lemma w_val_2 : w 2 = 3.1262 := rfl

lemma w_val_3 : w 3 = 15.4722 := rfl

lemma w_val_4 : w 4 = 7.2102 := rfl

lemma w_val_10 : w 10 = 1.0826 := rfl

lemma w_val_16 : w 16 = 2.9466 := rfl

/-- The expression `ivl` inside `next_interval` is exactly nine times the
stability: the constants collapse, since
`REQUEST_RETENTION ^ (1 / DECAY) - 1 = (9/10)^(-2) - 1 = 19/81 = FACTOR`. -/
lemma next_interval_exact_eq (S : ℝ) : next_interval_exact S = 9 * S := by
  unfold next_interval_exact REQUEST_RETENTION FACTOR DECAY
  have hexp : (1 : ℝ) / (-0.5 : ℝ) = ((-2 : ℤ) : ℝ) := by norm_num
  have h : (0.9 : ℝ) ^ ((1 : ℝ) / (-0.5 : ℝ)) = 100 / 81 := by
    rw [hexp, Real.rpow_intCast]
    norm_num
  rw [h]
  ring

/-- Claim C1 (code bug): the fixed point fails on the code.  At
`elapsed_days = stability = 1` the forgetting curve returns
`(748/729) ^ (-1/2) ≈ 0.987`, not `0.9`: `calculate_retrievability`
divides by `9 * stability` although `FACTOR = 19/81` is normalized for a
division by `stability` alone, contradicting the docstring
`When t = S, R = 0.9 (by design)`. -/
theorem C1_retrievability_fixed_point_fails :
    calculate_retrievability 1 1 ≠ 9 / 10 := by
  have h1 : calculate_retrievability 1 1 = (748 / 729 : ℝ) ^ (-0.5 : ℝ) := by
    unfold calculate_retrievability DECAY FACTOR
    norm_num
  intro h
  rw [h1] at h
  have h2 : (((748 / 729 : ℝ)) ^ (-0.5 : ℝ)) ^ ((-2 : ℤ) : ℝ) =
      ((9 : ℝ) / 10) ^ ((-2 : ℤ) : ℝ) := by rw [h]
  rw [← Real.rpow_mul (by norm_num : (0 : ℝ) ≤ 748 / 729)] at h2
  rw [show (-0.5 : ℝ) * ((-2 : ℤ) : ℝ) = 1 by norm_num] at h2
  rw [Real.rpow_one, Real.rpow_intCast] at h2
  norm_num at h2

/-- Claim C3: the scheduled interval inverts the forgetting curve.  At the
real-valued interval computed inside `next_interval` (before the rounding
to an integer and the floor at 1) the retrievability is exactly
`REQUEST_RETENTION = 0.9`, and `next_interval` returns exactly that value
rounded and floored. -/
theorem C3_interval_inversion (S : ℝ) (hS : 0 < S) :
    calculate_retrievability (next_interval_exact S) S = REQUEST_RETENTION ∧
    next_interval S = max 1 (round (next_interval_exact S)) := by
  refine ⟨?_, rfl⟩
  rw [next_interval_exact_eq]
  unfold calculate_retrievability FACTOR DECAY REQUEST_RETENTION
  have hS9 : (9 : ℝ) * S ≠ 0 := mul_ne_zero (by norm_num) (ne_of_gt hS)
  have hbase : (1 : ℝ) + 19 / 81 * (9 * S) / (9 * S) = 100 / 81 := by
    rw [mul_div_assoc, div_self hS9]
    norm_num
  rw [hbase]
  rw [show (100 : ℝ) / 81 = ((10 : ℝ) / 9) ^ ((2 : ℕ) : ℝ) by
    rw [Real.rpow_natCast]; norm_num]
  rw [← Real.rpow_mul (by norm_num : (0 : ℝ) ≤ (10 : ℝ) / 9)]
  rw [show ((2 : ℕ) : ℝ) * (-0.5 : ℝ) = ((-1 : ℤ) : ℝ) by norm_num]
  rw [Real.rpow_intCast]
  norm_num

/-- Witness for C3 at `S = 1`. -/
theorem C3_interval_inversion_witness :
    calculate_retrievability (next_interval_exact 1) 1 = REQUEST_RETENTION ∧
    next_interval 1 = max 1 (round (next_interval_exact 1)) :=
  C3_interval_inversion 1 (by norm_num)

/-- Modelled from the claim under scrutiny: the scheduled interval is nine
times the stability, rounded to the nearest integer and floored at 1. -/
noncomputable def next_interval_spec (S : ℝ) : ℤ := max 1 (round (9 * S))

/-- Claim C10: with the fixed constants of the module, `next_interval`
computes `max(1, round(9 * stability))`. -/
theorem C10_next_interval_is_nine_stability (S : ℝ) (hS : 0 < S) :
    next_interval S = next_interval_spec S := by
  unfold next_interval next_interval_spec
  rw [next_interval_exact_eq]

/-- Witness for C10 at `S = 1`. -/
theorem C10_next_interval_is_nine_stability_witness :
    next_interval 1 = next_interval_spec 1 :=
  C10_next_interval_is_nine_stability 1 (by norm_num)

/-- Claim C2 (code bug): difficulty is not clamped on the first review.
Reviewing a fresh NEW card with rating Again(1) succeeds and sets
`difficulty = w[2] + (1 - 3) * w[3] + w[4] = -20.608 < 1`:
`init_difficulty` applies no clamp (rating Easy(4) likewise gives
`25.8086 > 10`), contradicting the `D: 1-10 scale` comment on the field. -/
theorem C2_difficulty_clamp_fails_on_first_review :
    (review_card Card.new 1 0).isSome = true ∧
    ((review_card Card.new 1 0).getD Card.new).difficulty < 1 := by
  constructor
  · rfl
  · have h : ((review_card Card.new 1 0).getD Card.new).difficulty =
        init_difficulty 1 := rfl
    rw [h]
    unfold init_difficulty
    rw [w_val_2, w_val_3, w_val_4]
    norm_num

/-- Claim C5 counterexample: reviewing through the object-level view changes
the object that was passed in.  The Python `review_card` assigns to the
attributes of the caller card and returns that same object, so after the
call the input object differs from its pre-call state (here `reps` moved
from 0 to 1): the input is not left unchanged. -/
theorem C5_input_card_mutated :
    (((review_card_obj (fun _ => Card.new) 0 3 0).getD
        ((fun _ => Card.new), 0)).1 0).reps ≠
      ((fun _ : ℕ => Card.new) 0).reps := by decide

/-- Claim C5 amended: `review_card` is a deterministic function of
(card, rating, review time) — the embedding itself is a pure function — but
it updates the input `Card` object in place and returns that same object:
after a successful call the returned reference is the input reference, the
object now holds exactly the computed next state, and no other object in
the store is touched. -/
theorem C5_review_updates_input_in_place (store : ℕ → Card) (ref : ℕ)
    (rating t : ℤ) (res : (ℕ → Card) × ℕ)
    (h : review_card_obj store ref rating t = some res) :
    res.2 = ref ∧
    review_card (store ref) rating t = some (res.1 ref) ∧
    ∀ j, j ≠ ref → res.1 j = store j := by
  unfold review_card_obj at h
  cases hrc : review_card (store ref) rating t with
  | none =>
    rw [hrc] at h
    exact absurd h (by simp)
  | some c2 =>
    rw [hrc] at h
    injection h with h
    subst h
    refine ⟨rfl, ?_, ?_⟩
    · simp [Function.update_same]
    · intro j hj
      exact Function.update_noteq hj c2 store

/-- Concrete store for the C5 witness. -/
noncomputable def exStore : ℕ → Card := fun _ => Card.new

/-- Concrete result of `review_card_obj exStore 0 3 0`. -/
noncomputable def exResult : (ℕ → Card) × ℕ :=
  (Function.update exStore 0 ((review_card Card.new 3 0).getD Card.new), 0)

/-- Witness for the amended C5 at a concrete store and review. -/
theorem C5_review_updates_input_in_place_witness :
    exResult.2 = 0 ∧ review_card (exStore 0) 3 0 = some (exResult.1 0) :=
  ⟨(C5_review_updates_input_in_place exStore 0 3 0 exResult rfl).1,
   (C5_review_updates_input_in_place exStore 0 3 0 exResult rfl).2.1⟩

/-- Claim C6 counterexample: rating 0 lies outside {1,2,3,4}, yet reviewing
a fresh card with it is not rejected — the call succeeds (Python negative
indexing silently reads `w[-1] = w[18]` in `init_stability`). -/
theorem C6_invalid_rating_not_rejected :
    (review_card Card.new 0 0).isSome = true := rfl

/-- Claim C6 amended: ratings outside {1,2,3,4} are not rejected and the
card state is mutated as in a normal review: on a NEW card, rating 0
silently selects `w[18] = 0.6567` as initial stability (negative indexing)
and rating 5 silently selects `w[4] = 7.2102`; `reps` advances in both
cases.  Only a rating whose index falls outside Python list range would
raise, and the CLI is the only place restricting ratings to 1..4. -/
theorem C6_invalid_rating_silently_indexes (card : Card) (t : ℤ)
    (h : card.state = State.NEW) :
    ((review_card card 0 t).getD Card.new).stability = max 0.1 0.6567 ∧
    ((review_card card 0 t).getD Card.new).reps = card.reps + 1 ∧
    ((review_card card 5 t).getD Card.new).stability = max 0.1 7.2102 ∧
    ((review_card card 5 t).getD Card.new).reps = card.reps + 1 := by
  simp [review_card, h, schedule, init_stability, pyIndex, DEFAULT_WEIGHTS]

/-- Witness for the amended C6 on a fresh card. -/
theorem C6_invalid_rating_silently_indexes_witness :
    ((review_card Card.new 0 0).getD Card.new).stability = max 0.1 0.6567 ∧
    ((review_card Card.new 0 0).getD Card.new).reps = Card.new.reps + 1 ∧
    ((review_card Card.new 5 0).getD Card.new).stability = max 0.1 7.2102 ∧
    ((review_card Card.new 5 0).getD Card.new).reps = Card.new.reps + 1 :=
  C6_invalid_rating_silently_indexes Card.new 0 rfl

/-- Claim C4: `review_card` implements exactly the specified state machine
for every rating in {1,2,3,4}: a NEW card moves to LEARNING on Again(1) and
to REVIEW otherwise; a non-NEW card moves to RELEARNING on Again (lapses up
by exactly 1) and to REVIEW otherwise (lapses unchanged); `reps` rises by
exactly 1 in every case, and no state is terminal (the review always
produces a next state). -/
theorem C4_state_machine (card : Card) (rating t : ℤ)
    (h1 : 1 ≤ rating) (h4 : rating ≤ 4) :
    ((review_card card rating t).isSome = true) ∧
    (((review_card card rating t).getD Card.new).reps = card.reps + 1) ∧
    (card.state = State.NEW →
      ((review_card card rating t).getD Card.new).state =
        (if rating = 1 then State.LEARNING else State.REVIEW) ∧
      ((review_card card rating t).getD Card.new).lapses = card.lapses) ∧
    (card.state ≠ State.NEW →
      ((review_card card rating t).getD Card.new).state =
        (if rating = 1 then State.RELEARNING else State.REVIEW) ∧
      ((review_card card rating t).getD Card.new).lapses =
        card.lapses + (if rating = 1 then 1 else 0)) := by
  interval_cases rating <;>
    by_cases hnew : card.state = State.NEW <;>
      simp [review_card, hnew, schedule, init_stability, pyIndex, DEFAULT_WEIGHTS]

/-- Witness for C4: first review of a fresh card with rating Good(3). -/
theorem C4_state_machine_witness :
    ((review_card Card.new 3 0).isSome = true) ∧
    ((review_card Card.new 3 0).getD Card.new).state = State.REVIEW ∧
    ((review_card Card.new 3 0).getD Card.new).reps = Card.new.reps + 1 := by
  have h := C4_state_machine Card.new 3 0 (by norm_num) (by norm_num)
  refine ⟨h.1, ?_, h.2.1⟩
  have h2 := (h.2.2.1 rfl).1
  simpa using h2

/-- Claim C8: after every review with a rating in {1,2,3,4} — first review
of a NEW card, success, or lapse — the stability of the updated card is at
least 0.1 (each of `init_stability`, `update_stability_on_success` and
`update_stability_on_lapse` floors its result at 0.1). -/
theorem C8_stability_floor (card : Card) (rating t : ℤ)
    (h1 : 1 ≤ rating) (h4 : rating ≤ 4) :
    (review_card card rating t).isSome = true ∧
    (0.1 : ℝ) ≤ ((review_card card rating t).getD Card.new).stability := by
  interval_cases rating <;>
    by_cases hnew : card.state = State.NEW <;>
      simp [review_card, hnew, schedule, init_stability, pyIndex, DEFAULT_WEIGHTS,
        update_stability_on_lapse, update_stability_on_success]

/-- Witness for C8: a Hard(2) review five days in. -/
theorem C8_stability_floor_witness :
    (review_card Card.new 2 5).isSome = true ∧
    (0.1 : ℝ) ≤ ((review_card Card.new 2 5).getD Card.new).stability :=
  C8_stability_floor Card.new 2 5 (by norm_num) (by norm_num)

/-- Claim C7: with difficulty in the documented [1,10] range, positive
stability and retrievability at most 1, a success review rated Easy(4)
yields at least the stability of the same review rated Good(3): the Easy
branch multiplies the (nonnegative) stability gain by `exp(w[16]) ≥ 1`. -/
theorem C7_easy_rating_stability_ge_good (card : Card) (R : ℝ)
    (hD1 : 1 ≤ card.difficulty) (hD10 : card.difficulty ≤ 10)
    (hS : 0 < card.stability) (hR : R ≤ 1) :
    update_stability_on_success card 3 R ≤ update_stability_on_success card 4 R := by
  have h11 : (0 : ℝ) ≤ 11 - card.difficulty := by linarith
  have hrp : (0 : ℝ) ≤ card.stability ^ (-(w 9)) := (Real.rpow_pos_of_pos hS _).le
  have hw10 : (0 : ℝ) ≤ w 10 * (1 - R) :=
    mul_nonneg (by rw [w_val_10]; norm_num) (by linarith)
  have hexp1 : (0 : ℝ) ≤ Real.exp (w 10 * (1 - R)) - 1 := by
    have h := Real.one_le_exp hw10
    linarith
  have hA : (0 : ℝ) ≤ Real.exp (w 8) * (11 - card.difficulty) *
      card.stability ^ (-(w 9)) * (Real.exp (w 10 * (1 - R)) - 1) *
      Real.exp (w 15 * (1 - 0)) :=
    mul_nonneg (mul_nonneg (mul_nonneg (mul_nonneg (Real.exp_pos _).le h11) hrp)
      hexp1) (Real.exp_pos _).le
  have hmono : Real.exp (w 16 * 0) ≤ Real.exp (w 16 * 1) := by
    rw [Real.exp_le_exp, w_val_16]
    norm_num
  simp only [update_stability_on_success, Int.reduceEq, reduceIte]
  apply max_le_max le_rfl
  apply mul_le_mul_of_nonneg_left ?_ hS.le
  apply add_le_add_left
  exact mul_le_mul_of_nonneg_left hmono hA

/-- Witness for C7 on a concrete in-range card and retrievability 0.9. -/
theorem C7_easy_rating_stability_ge_good_witness :
    update_stability_on_success { Card.new with difficulty := 5, stability := 2 } 3 (9 / 10) ≤
    update_stability_on_success { Card.new with difficulty := 5, stability := 2 } 4 (9 / 10) :=
  C7_easy_rating_stability_ge_good _ _ (by norm_num [Card.new])
    (by norm_num [Card.new]) (by norm_num [Card.new]) (by norm_num)

end FSRS

namespace Store

/-- A due row of user 1. -/
noncomputable def rowA : SRRow :=
  { card_id := 1, user_id := 1, skill_id := 1, stability := 1, difficulty := 5,
    due := 3, state := FSRS.State.REVIEW }

/-- A due row of user 2 with the earliest due date. -/
noncomputable def rowB : SRRow :=
  { card_id := 2, user_id := 2, skill_id := 2, stability := 1, difficulty := 5,
    due := 2, state := FSRS.State.REVIEW }

/-- Claim C9 counterexample: called for `user_id = 1`, the query still
returns the due card of user 2 — the SQL in `get_due_reviews` never
filters on `user_id`, so cards of other users appear in the result. -/
theorem C9_returns_other_users_cards :
    (get_due_reviews [rowA, rowB] [1, 2] 10 1 20).any
      (fun r => decide (r.user_id = 2)) = true := rfl

/-- Claim C9 amended: `get_due_reviews` returns only rows of the stored
table whose `due` is at most `now` (rows with `due > now` never appear,
whatever the limit), sorted ascending by `due`, at most `limit` of them,
and the call is a pure read of the table; but the `user_id` argument is
ignored, so the rows are drawn from all users, not only the given one. -/
theorem C9_due_query (table : List SRRow) (skills : List ℕ) (now : ℤ)
    (uid limit : ℕ) :
    (∀ r ∈ get_due_reviews table skills now uid limit, r.due ≤ now ∧ r ∈ table) ∧
    List.Sorted dueLE (get_due_reviews table skills now uid limit) ∧
    (get_due_reviews table skills now uid limit).length ≤ limit ∧
    (∀ u, get_due_reviews table skills now u limit =
      get_due_reviews table skills now uid limit) := by
  refine ⟨?_, ?_, ?_, fun u => rfl⟩
  · intro r hr
    unfold get_due_reviews at hr
    have h1 := List.mem_of_mem_take hr
    rw [List.mem_insertionSort] at h1
    rw [List.mem_filter] at h1
    obtain ⟨hmem, hp⟩ := h1
    simp only [Bool.and_eq_true, decide_eq_true_eq] at hp
    exact ⟨hp.2, hmem⟩
  · exact (List.sorted_insertionSort dueLE _).sublist (List.take_sublist _ _)
  · exact List.length_take_le _ _

/-- Witness for the amended C9 on a concrete two-user table with limit 1. -/
theorem C9_due_query_witness :
    rowB.due ≤ (10 : ℤ) ∧
    (get_due_reviews [rowA, rowB] [1, 2] 10 1 1).length ≤ 1 := by
  have h := C9_due_query [rowA, rowB] [1, 2] 10 1 1
  refine ⟨(h.1 rowB ?_).1, h.2.2.1⟩
  rw [show get_due_reviews [rowA, rowB] [1, 2] 10 1 1 = [rowB] from rfl]
  exact List.mem_singleton_self _

end Store
